import Mathlib

/-
  Verification development for the dataset-loading adapter in
  `src/utils/dataloader.py` (classes `SSMDataset` and `SSMDataModule`).

  Shallow embedding conventions:
  * A numpy array is a nested list of rationals together with an element-type
    tag (`DType`); `astype` changes only the tag (value rounding of machine
    floats is outside the model).
  * An `.npz` archive is a record of optional named arrays; a missing key is
    `none`.
  * The filesystem is a map from path strings to optional archives; a missing
    file is `none` and `np.load` failing on it is `ErrorKind.ArchiveNotFound`
    (Python `FileNotFoundError`), a missing required key is
    `ErrorKind.MissingRequiredField` (Python `KeyError`), argument-validation
    failures inside numpy/torch are `ErrorKind.ValueError`, and out-of-range
    fancy indexing or `__getitem__` is `ErrorKind.IndexOutOfBounds`
    (Python `IndexError`).
  * `np.random.choice` / `torch.utils.data.RandomSampler` randomness is an
    explicit oracle argument `RandOracle`; its documented library contract is
    the predicate `RandOracle.Valid`.
  * A built `DataLoader` is represented by the dataset plus the batches of one
    full iteration pass.
-/

namespace SSM

/-- Element-type tag of a numpy array / torch tensor. -/
inductive DType
  | float32
  | float64
  | int16
  | int32
  | int64
  | other (descr : String)
deriving DecidableEq

/-- Is this element type a floating-point type? -/
def DType.isFloat : DType → Bool
  | .float32 => true
  | .float64 => true
  | _ => false

/-- A 3-d (sample × time × channel) numpy array: dtype tag plus data. -/
structure Arr3 where
  dtype : DType
  data : List (List (List Rat))
deriving DecidableEq

/-- A 1-d (per-sample scalar) numpy array: dtype tag plus data. -/
structure Arr1 where
  dtype : DType
  data : List Rat
deriving DecidableEq

/-- An `.npz` archive: keyed arrays; a key the archive lacks is `none`. -/
structure Npz where
  image : Option Arr3
  label : Option Arr1
  state : Option Arr3
  control : Option Arr3
deriving DecidableEq

/-- Error taxonomy of the load path (see the module comment for the mapping
from Python exceptions). -/
inductive ErrorKind
  | ArchiveNotFound
  | MissingRequiredField
  | IndexOutOfBounds
  | ValueError
deriving DecidableEq

/-- The configuration fields of `self.cfg` that `make_loader` reads. -/
structure Config where
  dataset : String
  dataset_percent : Rat
  batch_size : Int
  num_steps : Int
deriving DecidableEq

/-- Explicit source of randomness standing for the numpy / torch global RNG:
`choiceNoReplace n k` is `np.random.choice(range(n), size=k, replace=False)`,
`perm n` is the visit order a shuffling loader uses for `n` samples, and
`drawReplace n k` is the `k` indices a replacement-based random index source
draws over `n` samples. -/
structure RandOracle where
  choiceNoReplace : Nat → Nat → List Nat
  perm : Nat → List Nat
  drawReplace : Nat → Nat → List Nat

/-- The documented library contract of the randomness primitives. -/
structure RandOracle.Valid (r : RandOracle) : Prop where
  choice_length : ∀ n k, k ≤ n → (r.choiceNoReplace n k).length = k
  choice_nodup : ∀ n k, k ≤ n → (r.choiceNoReplace n k).Nodup
  choice_lt : ∀ n k, k ≤ n → ∀ i ∈ r.choiceNoReplace n k, i < n
  perm_perm : ∀ n, (r.perm n).Perm (List.range n)
  draw_length : ∀ n k, (r.drawReplace n k).length = k
  draw_lt : ∀ n k, 0 < n → ∀ i ∈ r.drawReplace n k, i < n

/-- One sample as returned by `SSMDataset.__getitem__`: the index plus the four
corresponding rows, each with the element type of the tensor it was read
from. -/
structure Record where
  index : Nat
  image : List (List Rat)
  image_dtype : DType
  state : List (List Rat)
  state_dtype : DType
  control : List (List Rat)
  control_dtype : DType
  label : Rat
  label_dtype : DType
deriving DecidableEq

/-- Class `SSMDataset`: the four parallel tensors it stores. -/
structure SSMDataset where
  images : Arr3
  labels : Arr1
  states : Arr3
  controls : Arr3
deriving DecidableEq

/-- Method `SSMDataset.__len__`: the leading dimension of `self.images` only. -/
def SSMDataset.len (ds : SSMDataset) : Nat := ds.images.data.length

/-- Method `SSMDataset.__getitem__`: index each of the four tensors at `idx`;
out of range is `none` (Python `IndexError`). -/
def SSMDataset.getItem (ds : SSMDataset) (idx : Nat) : Option Record :=
  match ds.images.data.get? idx, ds.states.data.get? idx,
        ds.controls.data.get? idx, ds.labels.data.get? idx with
  | some im, some st, some ct, some lb =>
      some ⟨idx, im, ds.images.dtype, st, ds.states.dtype,
            ct, ds.controls.dtype, lb, ds.labels.dtype⟩
  | _, _, _, _ => none

/-- Optional map over a list, written out for easy induction: apply a fallible
lookup to every element, failing if any single lookup fails. -/
def optMap {α β : Type} (f : α → Option β) : List α → Option (List β)
  | [] => some []
  | a :: l =>
    match f a, optMap f l with
    | some b, some bs => some (b :: bs)
    | _, _ => none

/-- numpy fancy indexing `arr[idx_list]` on the leading axis: row lookup for
every index, `none` (IndexError) if any is out of range. -/
def npIndex {α : Type} (l : List α) (idx : List Nat) : Option (List α) :=
  optMap (fun i => l.get? i) idx

/-- Python `int(images.shape[0] * self.cfg.dataset_percent)`: the exact rational
`n * p` equals `(n * p.num) / p.den`, and Python `int()` truncates toward
zero, which is `Int.tdiv`. -/
def subsampleSize (n : Nat) (p : Rat) : Int :=
  Int.tdiv ((n : Int) * p.num) (p.den : Int)

/-- The path `f"data/{self.cfg.dataset}/{mode}.npz"` handed to `np.load`. -/
def archivePath (cfg : Config) (mode : String) : String :=
  "data/" ++ cfg.dataset ++ "/" ++ mode ++ ".npz"

/-- The `control` array used by `make_loader`: the archive's own `control`
entry when the key exists, otherwise
`np.zeros((images.shape[0], images.shape[1], 1), dtype=np.float32)`. -/
def controlOf (npz : Npz) (imgData : List (List (List Rat))) : Arr3 :=
  match npz.control with
  | some c => c
  | none => ⟨DType.float32,
      List.replicate imgData.length (List.replicate (imgData.headD []).length [(0 : Rat)])⟩

/-- Group a list into consecutive chunks of size `bs` (fuel-based recursion;
the fuel `l.length` suffices whenever `0 < bs`). A trailing chunk may be
shorter than `bs`. -/
def chunkAux {α : Type} (bs : Nat) : Nat → List α → List (List α)
  | _, [] => []
  | 0, _ :: _ => []
  | fuel + 1, x :: xs => (x :: xs).take bs :: chunkAux bs fuel ((x :: xs).drop bs)

/-- Batching as `DataLoader` does it: consecutive groups of `batch_size`
samples in iteration order. -/
def chunkList {α : Type} (bs : Nat) (l : List α) : List (List α) :=
  chunkAux bs l.length l

/-- A constructed `DataLoader`: the wrapped dataset together with the batches
one full iteration pass yields. -/
structure Loader where
  dataset : SSMDataset
  batches : List (List Record)
deriving DecidableEq

/-- The subsample index set `rand_idx`:
`np.random.choice(range(n), size=int(n * percent), replace=False)`. -/
def subsampleIdx (r : RandOracle) (cfg : Config) (n : Nat) : List Nat :=
  r.choiceNoReplace n (subsampleSize n cfg.dataset_percent).toNat

/-- Lines 36-60 of `make_loader`: `np.load`, read `image` / `label` / `state`
(with their dtype casts and the first-two-channels narrowing of `state`), read
or synthesize `control`, draw the subsample index set once and apply it to all
four arrays, and build the `SSMDataset`. `np.random.choice` rejects a negative
size and, with `replace=False`, a size larger than the population. -/
def loadDataset (fs : String → Option Npz) (cfg : Config) (r : RandOracle)
    (mode : String) : Except ErrorKind SSMDataset :=
  match fs (archivePath cfg mode) with
  | none => Except.error ErrorKind.ArchiveNotFound
  | some npzfile =>
    match npzfile.image, npzfile.label, npzfile.state with
    | some image0, some label0, some state0 =>
      if subsampleSize image0.data.length cfg.dataset_percent < 0 ∨
          (image0.data.length : Int) < subsampleSize image0.data.length cfg.dataset_percent then
        Except.error ErrorKind.ValueError
      else
        match npIndex image0.data (subsampleIdx r cfg image0.data.length),
              npIndex label0.data (subsampleIdx r cfg image0.data.length),
              npIndex (state0.data.map (fun row => row.map (fun t => t.take 2)))
                (subsampleIdx r cfg image0.data.length),
              npIndex (controlOf npzfile image0.data).data
                (subsampleIdx r cfg image0.data.length) with
        | some imagesS, some labelsS, some statesS, some controlsS =>
            Except.ok ⟨⟨DType.float32, imagesS⟩, ⟨DType.int16, labelsS⟩,
                       ⟨DType.float32, statesS⟩,
                       ⟨(controlOf npzfile image0.data).dtype, controlsS⟩⟩
        | _, _, _, _ => Except.error ErrorKind.IndexOutOfBounds
    | _, _, _ => Except.error ErrorKind.MissingRequiredField

/-- Lines 62-70 of `make_loader`: build the `DataLoader`. Train + non-eval
constructs `RandomSampler(dataset, replacement=True,
num_samples=num_steps * batch_size)` — whose initializer rejects a
non-positive requested draw count — and then the `DataLoader` with
`drop_last=True`, whose batch grouping rejects a non-positive batch size.
Every other combination is one bounded pass: the `DataLoader` first builds its
default index source — with `shuffle=True` that is `RandomSampler(dataset)`,
whose initializer rejects `num_samples = len(dataset)` when the dataset is
empty; with `shuffle=False` a sequential source with no such check — and then
its batch grouping, again rejecting a non-positive batch size; a trailing
partial batch is kept. -/
def buildLoader (cfg : Config) (r : RandOracle) (mode : String)
    (evaluation : Bool) (shuffle : Bool) (dataset : SSMDataset) :
    Except ErrorKind Loader :=
  if mode = "train" ∧ evaluation = false then
    if cfg.num_steps * cfg.batch_size ≤ 0 then Except.error ErrorKind.ValueError
    else if cfg.batch_size ≤ 0 then Except.error ErrorKind.ValueError
    else
      match optMap dataset.getItem
          (r.drawReplace dataset.len (cfg.num_steps * cfg.batch_size).toNat) with
      | none => Except.error ErrorKind.IndexOutOfBounds
      | some recs =>
          Except.ok ⟨dataset, (chunkList cfg.batch_size.toNat recs).filter
            (fun b => b.length == cfg.batch_size.toNat)⟩
  else
    if shuffle = true ∧ dataset.len = 0 then Except.error ErrorKind.ValueError
    else if cfg.batch_size ≤ 0 then Except.error ErrorKind.ValueError
    else
      match optMap dataset.getItem
          (if shuffle then r.perm dataset.len else List.range dataset.len) with
      | none => Except.error ErrorKind.IndexOutOfBounds
      | some recs => Except.ok ⟨dataset, chunkList cfg.batch_size.toNat recs⟩

/-- Method `SSMDataModule.make_loader(mode, evaluation, shuffle)`. The Python
signature's defaults are `mode="train"`, `evaluation=False`, `shuffle=True`;
call sites below pass every argument explicitly. -/
def make_loader (fs : String → Option Npz) (cfg : Config) (r : RandOracle)
    (mode : String) (evaluation : Bool) (shuffle : Bool) :
    Except ErrorKind Loader :=
  match loadDataset fs cfg r mode with
  | Except.error e => Except.error e
  | Except.ok dataset => buildLoader cfg r mode evaluation shuffle dataset

/-- Accessor `train_dataloader`: `self.make_loader("train")`, all other arguments at
their defaults (`evaluation=False`, `shuffle=True`). -/
def train_dataloader (fs : String → Option Npz) (cfg : Config) (r : RandOracle) :
    Except ErrorKind Loader :=
  make_loader fs cfg r "train" false true

/-- Accessor `evaluate_train_dataloader`: `self.make_loader("train", evaluation=True, shuffle=False)`. -/
def evaluate_train_dataloader (fs : String → Option Npz) (cfg : Config) (r : RandOracle) :
    Except ErrorKind Loader :=
  make_loader fs cfg r "train" true false

/-- Accessor `val_dataloader`: `self.make_loader("val", shuffle=False)` (`evaluation`
at its default `False`). -/
def val_dataloader (fs : String → Option Npz) (cfg : Config) (r : RandOracle) :
    Except ErrorKind Loader :=
  make_loader fs cfg r "val" false false

/-- Accessor `test_dataloader`: `self.make_loader("test", shuffle=False)` (`evaluation`
at its default `False`). -/
def test_dataloader (fs : String → Option Npz) (cfg : Config) (r : RandOracle) :
    Except ErrorKind Loader :=
  make_loader fs cfg r "test" false false

/-! ## Helper lemmas -/

lemma subsampleSize_eq_floor (n : Nat) (p : Rat) (hp : 0 ≤ p) :
    subsampleSize n p = ⌊(n : Rat) * p⌋ := by
  have hnum : 0 ≤ p.num := Rat.num_nonneg.2 hp
  have hcast : (n : Rat) * p = (((n : Int) * p.num : Int) : Rat) / ((p.den : Nat) : Rat) := by
    nth_rewrite 1 [← Rat.num_div_den p]
    push_cast
    rw [mul_div_assoc]
  rw [subsampleSize, hcast, Rat.floor_intCast_div_natCast,
    Int.tdiv_eq_ediv (by positivity) (by positivity)]

lemma subsampleSize_one (n : Nat) : subsampleSize n 1 = (n : Int) := by
  simp [subsampleSize]

lemma optMap_congr_some {α β : Type} {f : α → Option β} {g : α → β} :
    ∀ {l : List α}, (∀ a ∈ l, f a = some (g a)) → optMap f l = some (l.map g)
  | [], _ => rfl
  | a :: l, h => by
    have ha := h a (List.mem_cons_self a l)
    have hl := optMap_congr_some (fun x hx => h x (List.mem_cons_of_mem a hx))
    simp [optMap, ha, hl]

lemma optMap_some_isSome {α β : Type} {f : α → Option β} :
    ∀ {l : List α} {ys : List β}, optMap f l = some ys → ∀ a ∈ l, (f a).isSome
  | [], _, _, a, ha => by cases ha
  | a :: l, ys, h, b, hb => by
    rw [optMap] at h
    cases hfa : f a with
    | none => rw [hfa] at h; cases h
    | some v =>
      rw [hfa] at h
      cases hml : optMap f l with
      | none => rw [hml] at h; cases h
      | some vs =>
        cases hb with
        | head => simp [hfa]
        | tail _ hb' => exact optMap_some_isSome hml b hb'

lemma optMap_some_length {α β : Type} {f : α → Option β} :
    ∀ {l : List α} {ys : List β}, optMap f l = some ys → ys.length = l.length
  | [], ys, h => by simp [optMap] at h; simp [← h]
  | a :: l, ys, h => by
    rw [optMap] at h
    cases hfa : f a with
    | none => rw [hfa] at h; cases h
    | some v =>
      rw [hfa] at h
      cases hml : optMap f l with
      | none => rw [hml] at h; cases h
      | some vs =>
        rw [hml] at h
        cases h
        simp [optMap_some_length hml]

lemma optMap_some_eq_map {α β : Type} {f : α → Option β} {g : α → β}
    {l : List α} {ys : List β} (h : optMap f l = some ys)
    (hg : ∀ a ∈ l, f a = some (g a)) : ys = l.map g := by
  have := optMap_congr_some hg
  exact Option.some_inj.1 (h.symm.trans this)

lemma get?_isSome_iff {α : Type} : ∀ (l : List α) (i : Nat), (l.get? i).isSome = true ↔ i < l.length
  | [], i => by simp [List.get?]
  | a :: l, 0 => by simp [List.get?]
  | a :: l, i + 1 => by
    simp only [List.get?, List.length_cons]
    rw [get?_isSome_iff l i]
    omega

lemma get?_eq_some_getD {α : Type} (d : α) :
    ∀ (l : List α) (i : Nat), i < l.length → l.get? i = some (l.getD i d)
  | [], i, h => by simp at h
  | a :: l, 0, _ => rfl
  | a :: l, i + 1, h => by
    simp only [List.length_cons] at h
    exact get?_eq_some_getD d l i (by omega)

lemma chunkAux_flatten {α : Type} {bs : Nat} (hb : 0 < bs) :
    ∀ (fuel : Nat) (l : List α), l.length ≤ fuel → (chunkAux bs fuel l).flatten = l
  | 0, [], _ => rfl
  | _ + 1, [], _ => rfl
  | 0, a :: l, h => by simp at h
  | fuel + 1, a :: l, h => by
    rw [chunkAux, List.flatten_cons]
    have hlen : ((a :: l).drop bs).length ≤ fuel := by
      rw [List.length_drop]
      simp only [List.length_cons] at h ⊢
      omega
    rw [chunkAux_flatten hb fuel _ hlen, List.take_append_drop]

lemma chunkList_flatten {α : Type} {bs : Nat} (hb : 0 < bs) (l : List α) :
    (chunkList bs l).flatten = l :=
  chunkAux_flatten hb l.length l (le_refl _)

lemma chunkAux_exact {α : Type} {bs : Nat} (hb : 0 < bs) :
    ∀ (m : Nat) (fuel : Nat) (l : List α), l.length = m * bs → l.length ≤ fuel →
      (chunkAux bs fuel l).length = m ∧ ∀ c ∈ chunkAux bs fuel l, c.length = bs
  | 0, fuel, l, hm, _ => by
    have : l = [] := List.eq_nil_of_length_eq_zero (by omega)
    subst this
    cases fuel <;> exact ⟨rfl, by intro c hc; cases hc⟩
  | m + 1, fuel, l, hm, hf => by
    rw [Nat.succ_mul] at hm
    have hlpos : 0 < l.length := by omega
    cases l with
    | nil => simp at hlpos
    | cons a l =>
      simp only [List.length_cons] at hm hf
      cases fuel with
      | zero => omega
      | succ fuel =>
        rw [chunkAux]
        have hdrop : ((a :: l).drop bs).length = m * bs := by
          rw [List.length_drop]
          simp only [List.length_cons]
          omega
        have hdf : ((a :: l).drop bs).length ≤ fuel := by
          rw [List.length_drop]
          simp only [List.length_cons]
          omega
        obtain ⟨h1, h2⟩ := chunkAux_exact hb m fuel _ hdrop hdf
        refine ⟨by simp [h1], ?_⟩
        intro c hc
        rcases List.mem_cons.1 hc with hc | hc
        · subst hc
          rw [List.length_take]
          simp only [List.length_cons]
          omega
        · exact h2 c hc

lemma perm_range_of_nodup_lt {l : List Nat} {n : Nat} (hnd : l.Nodup)
    (hlt : ∀ i ∈ l, i < n) (hlen : l.length = n) : l.Perm (List.range n) := by
  have hsub : l ⊆ List.range n := fun i hi => List.mem_range.2 (hlt i hi)
  have hsp : l.Subperm (List.range n) := hnd.subperm hsub
  exact hsp.perm_of_length_le (by rw [hlen, List.length_range])

lemma map_getD_range {α : Type} (l : List α) (d : α) :
    (List.range l.length).map (fun i => l.getD i d) = l := by
  apply List.ext_getElem
  · simp
  · intro i h1 h2
    simp only [List.getElem_map, List.getElem_range]
    rw [List.getD_eq_getElem?_getD, List.getElem?_eq_getElem h2]
    rfl

/-! ## Elimination lemmas for successful runs -/

lemma npIndex_ok {α : Type} (d : α) {l : List α} {idx : List Nat} {ys : List α}
    (h : npIndex l idx = some ys) :
    (∀ i ∈ idx, i < l.length) ∧ ys = idx.map (fun i => l.getD i d) := by
  have hmem : ∀ i ∈ idx, i < l.length := by
    intro i hi
    exact (get?_isSome_iff l i).1 (optMap_some_isSome h i hi)
  exact ⟨hmem, optMap_some_eq_map h (fun i hi => get?_eq_some_getD d l i (hmem i hi))⟩

lemma loadDataset_ok {fs : String → Option Npz} {cfg : Config} {r : RandOracle}
    {mode : String} {ds : SSMDataset}
    (h : loadDataset fs cfg r mode = Except.ok ds) :
    ∃ npz img lb st,
      fs (archivePath cfg mode) = some npz ∧
      npz.image = some img ∧ npz.label = some lb ∧ npz.state = some st ∧
      0 ≤ subsampleSize img.data.length cfg.dataset_percent ∧
      subsampleSize img.data.length cfg.dataset_percent ≤ (img.data.length : Int) ∧
      (∀ i ∈ subsampleIdx r cfg img.data.length, i < img.data.length) ∧
      (∀ i ∈ subsampleIdx r cfg img.data.length, i < lb.data.length) ∧
      (∀ i ∈ subsampleIdx r cfg img.data.length, i < st.data.length) ∧
      (∀ i ∈ subsampleIdx r cfg img.data.length, i < (controlOf npz img.data).data.length) ∧
      ds = ⟨⟨DType.float32, (subsampleIdx r cfg img.data.length).map (fun i => img.data.getD i [])⟩,
            ⟨DType.int16, (subsampleIdx r cfg img.data.length).map (fun i => lb.data.getD i 0)⟩,
            ⟨DType.float32, (subsampleIdx r cfg img.data.length).map (fun i =>
                (st.data.map (fun row => row.map (fun t => t.take 2))).getD i [])⟩,
            ⟨(controlOf npz img.data).dtype,
             (subsampleIdx r cfg img.data.length).map
               (fun i => (controlOf npz img.data).data.getD i [])⟩⟩ := by
  unfold loadDataset at h
  split at h
  · cases h
  · rename_i npz hfs
    split at h
    · rename_i img lb st himg hlb hst
      split at h
      · cases h
      · rename_i hsz
        push_neg at hsz
        split at h
        · rename_i imagesS labelsS statesS controlsS hi1 hi2 hi3 hi4
          obtain ⟨hm1, he1⟩ := npIndex_ok ([] : List (List Rat)) hi1
          obtain ⟨hm2, he2⟩ := npIndex_ok (0 : Rat) hi2
          obtain ⟨hm3, he3⟩ := npIndex_ok ([] : List (List Rat)) hi3
          obtain ⟨hm4, he4⟩ := npIndex_ok ([] : List (List Rat)) hi4
          cases h
          refine ⟨npz, img, lb, st, hfs, himg, hlb, hst, by omega, by omega,
            hm1, hm2, ?_, hm4, ?_⟩
          · intro i hi
            have := hm3 i hi
            rw [List.length_map] at this
            exact this
          · rw [he1, he2, he3, he4]
        · cases h
    · cases h

lemma make_loader_split {fs : String → Option Npz} {cfg : Config} {r : RandOracle}
    {mode : String} {ev sh : Bool} {L : Loader}
    (h : make_loader fs cfg r mode ev sh = Except.ok L) :
    ∃ ds, loadDataset fs cfg r mode = Except.ok ds ∧
      buildLoader cfg r mode ev sh ds = Except.ok L := by
  unfold make_loader at h
  split at h
  · cases h
  · rename_i ds hld
    exact ⟨ds, hld, h⟩

lemma buildLoader_train_ok {cfg : Config} {r : RandOracle} {sh : Bool}
    {ds : SSMDataset} {L : Loader}
    (h : buildLoader cfg r "train" false sh ds = Except.ok L) :
    0 < cfg.num_steps * cfg.batch_size ∧ 0 < cfg.batch_size ∧ L.dataset = ds ∧
    ∃ recs, optMap ds.getItem
        (r.drawReplace ds.len (cfg.num_steps * cfg.batch_size).toNat) = some recs ∧
      L.batches = (chunkList cfg.batch_size.toNat recs).filter
        (fun b => b.length == cfg.batch_size.toNat) := by
  unfold buildLoader at h
  rw [if_pos ⟨rfl, rfl⟩] at h
  split at h
  · cases h
  · rename_i h1
    split at h
    · cases h
    · rename_i h2
      split at h
      · cases h
      · rename_i recs hrec
        cases h
        exact ⟨by omega, by omega, rfl, recs, hrec, rfl⟩

lemma buildLoader_bounded_ok {cfg : Config} {r : RandOracle} {mode : String}
    {ev sh : Bool} {ds : SSMDataset} {L : Loader}
    (hmode : ¬(mode = "train" ∧ ev = false))
    (h : buildLoader cfg r mode ev sh ds = Except.ok L) :
    0 < cfg.batch_size ∧ L.dataset = ds ∧
    ∃ recs, optMap ds.getItem (if sh then r.perm ds.len else List.range ds.len) = some recs ∧
      L.batches = chunkList cfg.batch_size.toNat recs := by
  unfold buildLoader at h
  rw [if_neg hmode] at h
  split at h
  · cases h
  · rename_i hsampler
    split at h
    · cases h
    · rename_i h1
      split at h
      · cases h
      · rename_i recs hrec
        cases h
        exact ⟨by omega, rfl, recs, hrec, rfl⟩

lemma getItem_eq_of_lt {ds : SSMDataset} {i : Nat}
    (h1 : i < ds.images.data.length) (h2 : i < ds.states.data.length)
    (h3 : i < ds.controls.data.length) (h4 : i < ds.labels.data.length) :
    ds.getItem i = some ⟨i, ds.images.data.getD i [], ds.images.dtype,
      ds.states.data.getD i [], ds.states.dtype,
      ds.controls.data.getD i [], ds.controls.dtype,
      ds.labels.data.getD i 0, ds.labels.dtype⟩ := by
  rw [SSMDataset.getItem, get?_eq_some_getD [] _ _ h1, get?_eq_some_getD [] _ _ h2,
    get?_eq_some_getD [] _ _ h3, get?_eq_some_getD (0 : Rat) _ _ h4]

lemma getItem_isSome_iff (ds : SSMDataset) (i : Nat) :
    (ds.getItem i).isSome = true ↔
      i < ds.images.data.length ∧ i < ds.states.data.length ∧
      i < ds.controls.data.length ∧ i < ds.labels.data.length := by
  constructor
  · intro hh
    rw [SSMDataset.getItem] at hh
    split at hh
    · rename_i im st ct lb hg1 hg2 hg3 hg4
      exact ⟨(get?_isSome_iff _ _).1 (by rw [hg1]; rfl),
        (get?_isSome_iff _ _).1 (by rw [hg2]; rfl),
        (get?_isSome_iff _ _).1 (by rw [hg3]; rfl),
        (get?_isSome_iff _ _).1 (by rw [hg4]; rfl)⟩
    · cases hh
  · intro ⟨k1, k2, k3, k4⟩
    rw [getItem_eq_of_lt k1 k2 k3 k4]
    rfl

/-! ## Concrete fixtures and claim theorems -/

lemma buildLoader_ok_dataset {cfg : Config} {r : RandOracle} {mode : String}
    {ev sh : Bool} {ds : SSMDataset} {L : Loader}
    (h : buildLoader cfg r mode ev sh ds = Except.ok L) : L.dataset = ds := by
  unfold buildLoader at h
  split at h
  · split at h
    · cases h
    · split at h
      · cases h
      · split at h
        · cases h
        · cases h; rfl
  · split at h
    · cases h
    · split at h
      · cases h
      · split at h
        · cases h
        · cases h; rfl

lemma getD_map_of_lt {α β : Type} (f : α → β) :
    ∀ (l : List α) (i : Nat), i < l.length → ∀ (d : β) (d' : α),
      (l.map f).getD i d = f (l.getD i d')
  | [], i, h => by simp at h
  | a :: l, 0, _ => by intro d d'; rfl
  | a :: l, i + 1, h => by
    intro d d'
    simp only [List.length_cons] at h
    exact getD_map_of_lt f l i (by omega) d d'

lemma subsampleIdx_spec {r : RandOracle} (hr : r.Valid) (cfg : Config) (n : Nat)
    (h0 : 0 ≤ subsampleSize n cfg.dataset_percent)
    (h1 : subsampleSize n cfg.dataset_percent ≤ (n : Int)) :
    (subsampleIdx r cfg n).length = (subsampleSize n cfg.dataset_percent).toNat ∧
    (subsampleIdx r cfg n).Nodup ∧
    ∀ i ∈ subsampleIdx r cfg n, i < n := by
  have hk : (subsampleSize n cfg.dataset_percent).toNat ≤ n := by omega
  exact ⟨hr.choice_length n _ hk, hr.choice_nodup n _ hk, hr.choice_lt n _ hk⟩

/-- C1: for every successful `make_loader` call, a single randomly drawn index
set is applied identically to all four arrays: the four arrays of the
resulting Dataset View have equal leading dimension, equal to the computed
subsample count, and row `i` of each array comes from the same original
archive row `ridx[i]` for every `i`. -/
theorem C1_single_index_set_aligns_all_four_arrays
    {fs : String → Option Npz} {cfg : Config} {r : RandOracle}
    {mode : String} {ev sh : Bool} {L : Loader}
    (hr : r.Valid)
    (hok : make_loader fs cfg r mode ev sh = Except.ok L) :
    ∃ npz img lb st,
      fs (archivePath cfg mode) = some npz ∧
      npz.image = some img ∧ npz.label = some lb ∧ npz.state = some st ∧
      ∃ ridx : List Nat,
        ridx.length = (subsampleSize img.data.length cfg.dataset_percent).toNat ∧
        L.dataset.images.data.length = ridx.length ∧
        L.dataset.labels.data.length = ridx.length ∧
        L.dataset.states.data.length = ridx.length ∧
        L.dataset.controls.data.length = ridx.length ∧
        ∀ i : Nat, i < ridx.length →
          L.dataset.images.data.getD i [] = img.data.getD (ridx.getD i 0) [] ∧
          L.dataset.labels.data.getD i 0 = lb.data.getD (ridx.getD i 0) 0 ∧
          L.dataset.states.data.getD i [] =
            (st.data.map (fun row => row.map (fun t => t.take 2))).getD (ridx.getD i 0) [] ∧
          L.dataset.controls.data.getD i [] =
            (controlOf npz img.data).data.getD (ridx.getD i 0) [] := by
  obtain ⟨ds, hld, hbl⟩ := make_loader_split hok
  obtain ⟨npz, img, lb, st, hfs, himg, hlb, hst, h0, h1, hm1, hm2, hm3, hm4, hds⟩ :=
    loadDataset_ok hld
  have hdseq : L.dataset = ds := buildLoader_ok_dataset hbl
  obtain ⟨hlen, hnd, hlt⟩ := subsampleIdx_spec hr cfg img.data.length h0 h1
  refine ⟨npz, img, lb, st, hfs, himg, hlb, hst,
    subsampleIdx r cfg img.data.length, hlen, ?_⟩
  subst hds
  rw [hdseq]
  refine ⟨by simp, by simp, by simp, by simp, ?_⟩
  intro i hi
  refine ⟨getD_map_of_lt _ _ _ hi _ _, getD_map_of_lt _ _ _ hi _ _,
    getD_map_of_lt _ _ _ hi _ _, getD_map_of_lt _ _ _ hi _ _⟩

/-- A deterministic stand-in for the library RNG, used to instantiate
theorems at concrete inputs: the without-replacement draw of `k` indices is
`[0, ..., k-1]`, the shuffle order is the identity order, and the
with-replacement draw repeats index `0`. -/
def seqOracle : RandOracle :=
  ⟨fun _ k => List.range k, fun n => List.range n, fun _ k => List.replicate k 0⟩

lemma seqOracle_valid : seqOracle.Valid := by
  constructor
  · intro n k _
    exact List.length_range k
  · intro n k _
    exact List.nodup_range k
  · intro n k hk i hi
    have := List.mem_range.1 hi
    omega
  · intro n
    exact List.Perm.refl _
  · intro n k
    exact List.length_replicate k 0
  · intro n k hn i hi
    have := List.eq_of_mem_replicate hi
    omega

/-- A tiny concrete archive: one sample, one timestep, no `control` key. -/
def exNpz : Npz :=
  ⟨some ⟨DType.float64, [[[5]]]⟩, some ⟨DType.int64, [7]⟩,
   some ⟨DType.float64, [[[1, 2, 3]]]⟩, none⟩

/-- A filesystem holding `exNpz` as every split of dataset `ds`. -/
def exFS : String → Option Npz :=
  fun p =>
    if p = "data/ds/train.npz" ∨ p = "data/ds/val.npz" ∨ p = "data/ds/test.npz" then
      some exNpz
    else none

def exCfg : Config := ⟨"ds", 1, 1, 1⟩

def exRec : Record :=
  ⟨0, [[5]], DType.float32, [[1, 2]], DType.float32, [[0]], DType.float32, 7, DType.int16⟩

def exDS : SSMDataset :=
  ⟨⟨DType.float32, [[[5]]]⟩, ⟨DType.int16, [7]⟩,
   ⟨DType.float32, [[[1, 2]]]⟩, ⟨DType.float32, [[[0]]]⟩⟩

lemma exRun_val : make_loader exFS exCfg seqOracle "val" false false =
    Except.ok ⟨exDS, [[exRec]]⟩ := rfl

lemma exRun_train : make_loader exFS exCfg seqOracle "train" false true =
    Except.ok ⟨exDS, [[exRec]]⟩ := rfl

/-- Witness for C1: the alignment property instantiated at a concrete archive,
configuration and oracle. -/
theorem C1_witness :
    seqOracle.Valid ∧
    make_loader exFS exCfg seqOracle "val" false false = Except.ok ⟨exDS, [[exRec]]⟩ ∧
    (∃ npz img lb st,
      exFS (archivePath exCfg "val") = some npz ∧
      npz.image = some img ∧ npz.label = some lb ∧ npz.state = some st ∧
      ∃ ridx : List Nat,
        ridx.length = (subsampleSize img.data.length exCfg.dataset_percent).toNat ∧
        exDS.images.data.length = ridx.length ∧
        exDS.labels.data.length = ridx.length ∧
        exDS.states.data.length = ridx.length ∧
        exDS.controls.data.length = ridx.length ∧
        ∀ i : Nat, i < ridx.length →
          exDS.images.data.getD i [] = img.data.getD (ridx.getD i 0) [] ∧
          exDS.labels.data.getD i 0 = lb.data.getD (ridx.getD i 0) 0 ∧
          exDS.states.data.getD i [] =
            (st.data.map (fun row => row.map (fun t => t.take 2))).getD (ridx.getD i 0) [] ∧
          exDS.controls.data.getD i [] =
            (controlOf npz img.data).data.getD (ridx.getD i 0) []) :=
  ⟨seqOracle_valid, exRun_val,
    C1_single_index_set_aligns_all_four_arrays seqOracle_valid exRun_val⟩

lemma chunkList_exact {α : Type} {bs m : Nat} (hb : 0 < bs) (l : List α)
    (hm : l.length = m * bs) :
    (chunkList bs l).length = m ∧ ∀ c ∈ chunkList bs l, c.length = bs :=
  chunkAux_exact hb m l.length l hm (le_refl _)

/-- C2: in train mode with `evaluation=False`, a successful `make_loader`
yields exactly `num_steps` batches of exactly `batch_size` samples each,
whatever the Dataset View size (indices are drawn with replacement). -/
theorem C2_resampling_exact_step_budget
    {fs : String → Option Npz} {cfg : Config} {r : RandOracle}
    {sh : Bool} {L : Loader}
    (hr : r.Valid)
    (hok : make_loader fs cfg r "train" false sh = Except.ok L) :
    L.batches.length = cfg.num_steps.toNat ∧
    ∀ b ∈ L.batches, b.length = cfg.batch_size.toNat := by
  obtain ⟨ds, hld, hbl⟩ := make_loader_split hok
  obtain ⟨hpos, hbs, hdseq, recs, hrecs, hb⟩ := buildLoader_train_ok hbl
  have hns : 0 < cfg.num_steps := by nlinarith
  have hdl : (r.drawReplace ds.len (cfg.num_steps * cfg.batch_size).toNat).length =
      (cfg.num_steps * cfg.batch_size).toNat := hr.draw_length _ _
  have hrl : recs.length = (cfg.num_steps * cfg.batch_size).toNat := by
    rw [optMap_some_length hrecs, hdl]
  have htn : (cfg.num_steps * cfg.batch_size).toNat =
      cfg.num_steps.toNat * cfg.batch_size.toNat := by
    calc (cfg.num_steps * cfg.batch_size).toNat
        = ((cfg.num_steps.toNat : Int) * (cfg.batch_size.toNat : Int)).toNat := by
          rw [Int.toNat_of_nonneg hns.le, Int.toNat_of_nonneg hbs.le]
      _ = ((cfg.num_steps.toNat * cfg.batch_size.toNat : Nat) : Int).toNat := by
          rw [Nat.cast_mul]
      _ = cfg.num_steps.toNat * cfg.batch_size.toNat := Int.toNat_ofNat _
  obtain ⟨hclen, hcall⟩ := @chunkList_exact Record cfg.batch_size.toNat cfg.num_steps.toNat
    (by omega) recs (by rw [hrl, htn])
  have hfilter : (chunkList cfg.batch_size.toNat recs).filter
      (fun b => b.length == cfg.batch_size.toNat) = chunkList cfg.batch_size.toNat recs := by
    apply List.filter_eq_self.2
    intro b hbmem
    exact beq_iff_eq.2 (hcall b hbmem)
  rw [hb, hfilter]
  exact ⟨hclen, hcall⟩

/-- Witness for C2 at a concrete input. -/
theorem C2_witness :
    (seqOracle.Valid ∧
      make_loader exFS exCfg seqOracle "train" false true = Except.ok ⟨exDS, [[exRec]]⟩) ∧
    ([[exRec]] : List (List Record)).length = exCfg.num_steps.toNat ∧
    ∀ b ∈ ([[exRec]] : List (List Record)), b.length = exCfg.batch_size.toNat :=
  ⟨⟨seqOracle_valid, exRun_train⟩,
    C2_resampling_exact_step_budget seqOracle_valid exRun_train⟩

/-- C9: each of the four public accessors equals `make_loader` at its fixed
arguments (with the Python defaults `evaluation=False`, `shuffle=True` filled
in at the call sites that omit them). -/
theorem C9_accessors_are_make_loader_specializations :
    (∀ (fs : String → Option Npz) (cfg : Config) (r : RandOracle),
      train_dataloader fs cfg r = make_loader fs cfg r "train" false true) ∧
    (∀ (fs : String → Option Npz) (cfg : Config) (r : RandOracle),
      evaluate_train_dataloader fs cfg r = make_loader fs cfg r "train" true false) ∧
    (∀ (fs : String → Option Npz) (cfg : Config) (r : RandOracle),
      val_dataloader fs cfg r = make_loader fs cfg r "val" false false) ∧
    (∀ (fs : String → Option Npz) (cfg : Config) (r : RandOracle),
      test_dataloader fs cfg r = make_loader fs cfg r "test" false false) :=
  ⟨fun _ _ _ => rfl, fun _ _ _ => rfl, fun _ _ _ => rfl, fun _ _ _ => rfl⟩

/-- C10: an `SSMDataset`'s length is the leading dimension of its images array
alone — construction checks nothing about the other three arrays — and every
index below that length is retrievable exactly when each of the other three
arrays has leading dimension at least `images.shape[0]`. -/
theorem C10_len_from_images_only_getitem_precondition (ds : SSMDataset) :
    ds.len = ds.images.data.length ∧
    ((∀ i : Nat, i < ds.len → (ds.getItem i).isSome = true) ↔
      (ds.len ≤ ds.labels.data.length ∧ ds.len ≤ ds.states.data.length ∧
       ds.len ≤ ds.controls.data.length)) := by
  refine ⟨rfl, ?_, ?_⟩
  · intro hall
    rcases Nat.eq_zero_or_pos ds.len with hz | hpos
    · omega
    · have hlast := hall (ds.len - 1) (by omega)
      obtain ⟨k1, k2, k3, k4⟩ := (getItem_isSome_iff ds (ds.len - 1)).1 hlast
      have hdl : ds.len = ds.images.data.length := rfl
      omega
  · rintro ⟨k1, k2, k3⟩ i hi
    rw [getItem_isSome_iff]
    have hdl : ds.len = ds.images.data.length := rfl
    exact ⟨by omega, by omega, by omega, by omega⟩

/-- Witness for C9 at concrete arguments. -/
theorem C9_witness :
    train_dataloader exFS exCfg seqOracle = make_loader exFS exCfg seqOracle "train" false true ∧
    evaluate_train_dataloader exFS exCfg seqOracle =
      make_loader exFS exCfg seqOracle "train" true false ∧
    val_dataloader exFS exCfg seqOracle = make_loader exFS exCfg seqOracle "val" false false ∧
    test_dataloader exFS exCfg seqOracle = make_loader exFS exCfg seqOracle "test" false false :=
  ⟨C9_accessors_are_make_loader_specializations.1 exFS exCfg seqOracle,
   C9_accessors_are_make_loader_specializations.2.1 exFS exCfg seqOracle,
   C9_accessors_are_make_loader_specializations.2.2.1 exFS exCfg seqOracle,
   C9_accessors_are_make_loader_specializations.2.2.2 exFS exCfg seqOracle⟩

/-- Witness for C10 at a concrete dataset. -/
theorem C10_witness :
    exDS.len = exDS.images.data.length ∧
    ((∀ i : Nat, i < exDS.len → (exDS.getItem i).isSome = true) ↔
      (exDS.len ≤ exDS.labels.data.length ∧ exDS.len ≤ exDS.states.data.length ∧
       exDS.len ≤ exDS.controls.data.length)) :=
  C10_len_from_images_only_getitem_precondition exDS

/-- An oracle that reverses the without-replacement draw order (a possible
outcome of `np.random.choice`), used to exhibit order-sensitivity. -/
def revOracle : RandOracle :=
  ⟨fun _ k => (List.range k).reverse, fun n => List.range n, fun _ k => List.replicate k 0⟩

lemma revOracle_valid : revOracle.Valid := by
  constructor
  · intro n k _
    simp [revOracle]
  · intro n k _
    simp [revOracle, List.nodup_reverse, List.nodup_range]
  · intro n k hk i hi
    simp only [revOracle, List.mem_reverse, List.mem_range] at hi
    omega
  · intro n
    exact List.Perm.refl _
  · intro n k
    exact List.length_replicate k 0
  · intro n k hn i hi
    have := List.eq_of_mem_replicate hi
    omega

/-- A two-sample archive with distinct rows and no `control` key. -/
def exNpz2 : Npz :=
  ⟨some ⟨DType.float64, [[[1]], [[2]]]⟩, some ⟨DType.int64, [3, 4]⟩,
   some ⟨DType.float64, [[[5, 6, 7]], [[8, 9, 10]]]⟩, none⟩

def exFS2 : String → Option Npz :=
  fun p => if p = "data/d2/val.npz" then some exNpz2 else none

def exCfg2 : Config := ⟨"d2", 1, 2, 1⟩

/-- Counterexample to C5 as frozen: with `dataset_percent = 1`,
`shuffle = false` and a without-replacement draw that comes back in reversed
order (a possible outcome of `np.random.choice`), the bounded pass visits the
two archive samples as `[row 1, row 0]`, not in archive order — the subsample
draw randomizes the Dataset View's order even though no shuffling was
requested. -/
theorem C5_counterexample :
    revOracle.Valid ∧
    exCfg2.dataset_percent = 1 ∧
    (make_loader exFS2 exCfg2 revOracle "val" false false).map
      (fun L => L.batches.flatten.map (fun rec => rec.image)) =
      Except.ok [[[2]], [[1]]] ∧
    ([[[(2 : Rat)]], [[1]]] ≠ [[[1]], [[2]]]) ∧
    exNpz2.image.map (fun a => a.data) = some [[[(1 : Rat)]], [[2]]] :=
  ⟨revOracle_valid, rfl, rfl, by decide, rfl⟩

/-- C5 amended: for every successful bounded-policy call (`mode` not the
train split, or `evaluation` set), one full pass yields exactly
Dataset-View-size samples in total (so never more, and a trailing partial
batch is kept); with `shuffle = false` the pass visits the Dataset View in
its stored order (the subsample draw's order, not necessarily archive order),
with `shuffle = true` in a permuted order; and with `dataset_percent = 1`
every original archive sample appears exactly once per pass. -/
theorem C5_bounded_pass_amended
    {fs : String → Option Npz} {cfg : Config} {r : RandOracle}
    {mode : String} {ev sh : Bool} {L : Loader}
    (hr : r.Valid) (hmode : ¬(mode = "train" ∧ ev = false))
    (hok : make_loader fs cfg r mode ev sh = Except.ok L) :
    L.batches.flatten.length = L.dataset.len ∧
    (sh = false → L.batches.flatten.map (fun rec => rec.image) = L.dataset.images.data) ∧
    (sh = true → (L.batches.flatten.map (fun rec => rec.image)).Perm L.dataset.images.data) ∧
    (cfg.dataset_percent = 1 →
      ∀ npz img, fs (archivePath cfg mode) = some npz → npz.image = some img →
        (L.batches.flatten.map (fun rec => rec.image)).Perm img.data) := by
  obtain ⟨ds, hld, hbl⟩ := make_loader_split hok
  obtain ⟨hbs, hdseq, recs, hrecs, hbatches⟩ := buildLoader_bounded_ok hmode hbl
  obtain ⟨npz', img', lb, st, hfs', himg', hlb, hst, h0, h1, hm1, hm2, hm3, hm4, hds⟩ :=
    loadDataset_ok hld
  obtain ⟨hridxlen, hridxnd, hridxlt⟩ := subsampleIdx_spec hr cfg img'.data.length h0 h1
  have hlenimg : ds.images.data.length = (subsampleIdx r cfg img'.data.length).length := by
    rw [hds]; simp
  have hlenlb : ds.labels.data.length = (subsampleIdx r cfg img'.data.length).length := by
    rw [hds]; simp
  have hlenst : ds.states.data.length = (subsampleIdx r cfg img'.data.length).length := by
    rw [hds]; simp
  have hlenct : ds.controls.data.length = (subsampleIdx r cfg img'.data.length).length := by
    rw [hds]; simp
  have hdl : ds.len = ds.images.data.length := rfl
  have hflat : L.batches.flatten = recs := by
    rw [hbatches]
    exact chunkList_flatten (by omega) recs
  have horder_perm : (if sh then r.perm ds.len else List.range ds.len).Perm
      (List.range ds.len) := by
    cases sh
    · simp
    · simpa using hr.perm_perm ds.len
  have horder_lt : ∀ i ∈ (if sh then r.perm ds.len else List.range ds.len), i < ds.len :=
    fun i hi => List.mem_range.1 (horder_perm.mem_iff.1 hi)
  have hrecs_eq : recs = (if sh then r.perm ds.len else List.range ds.len).map
      (fun i => (⟨i, ds.images.data.getD i [], ds.images.dtype,
        ds.states.data.getD i [], ds.states.dtype,
        ds.controls.data.getD i [], ds.controls.dtype,
        ds.labels.data.getD i 0, ds.labels.dtype⟩ : Record)) := by
    refine optMap_some_eq_map hrecs ?_
    intro i hi
    have hlt := horder_lt i hi
    exact getItem_eq_of_lt (by omega) (by omega) (by omega) (by omega)
  have hmapimg : recs.map (fun rec => rec.image) =
      (if sh then r.perm ds.len else List.range ds.len).map
        (fun i => ds.images.data.getD i []) := by
    rw [hrecs_eq, List.map_map]
    rfl
  have hrange_eq : (List.range ds.len).map (fun i => ds.images.data.getD i []) =
      ds.images.data := map_getD_range ds.images.data []
  refine ⟨?_, ?_, ?_, ?_⟩
  · rw [hflat, optMap_some_length hrecs, horder_perm.length_eq, List.length_range, hdseq]
  · intro hsh
    subst hsh
    rw [hflat, hmapimg, hdseq]
    simpa using hrange_eq
  · intro hsh
    subst hsh
    rw [hflat, hmapimg, hdseq]
    simp only [if_pos rfl]
    calc (r.perm ds.len).map (fun i => ds.images.data.getD i [])
        ≈ (List.range ds.len).map (fun i => ds.images.data.getD i []) :=
          (hr.perm_perm ds.len).map _
      _ = ds.images.data := hrange_eq
  · intro hp npz img hfs himg
    have hnpz_eq : npz = npz' := Option.some_inj.1 (hfs.symm.trans hfs')
    subst hnpz_eq
    have himg_eq : img = img' := Option.some_inj.1 (himg.symm.trans himg')
    subst himg_eq
    have hsz : subsampleSize img.data.length cfg.dataset_percent = (img.data.length : Int) := by
      rw [hp]
      exact subsampleSize_one img.data.length
    have hridxlen' : (subsampleIdx r cfg img.data.length).length = img.data.length := by
      rw [hridxlen, hsz, Int.toNat_ofNat]
    have hridx_perm : (subsampleIdx r cfg img.data.length).Perm
        (List.range img.data.length) :=
      perm_range_of_nodup_lt hridxnd hridxlt hridxlen'
    have himgdata : ds.images.data = (subsampleIdx r cfg img.data.length).map
        (fun i => img.data.getD i []) := by
      rw [hds]
    rw [hflat, hmapimg]
    calc (if sh then r.perm ds.len else List.range ds.len).map
          (fun i => ds.images.data.getD i [])
        ≈ (List.range ds.len).map (fun i => ds.images.data.getD i []) :=
          horder_perm.map _
      _ = ds.images.data := hrange_eq
      _ = (subsampleIdx r cfg img.data.length).map (fun i => img.data.getD i []) := himgdata
      _ ≈ (List.range img.data.length).map (fun i => img.data.getD i []) :=
          hridx_perm.map _
      _ = img.data := map_getD_range img.data []

/-- Witness for the amended C5 at a concrete input. -/
theorem C5_witness :
    (seqOracle.Valid ∧ ¬("val" = "train" ∧ false = false) ∧
      make_loader exFS exCfg seqOracle "val" false false = Except.ok ⟨exDS, [[exRec]]⟩) ∧
    (([[exRec]] : List (List Record)).flatten.length = exDS.len ∧
     (false = false →
       ([[exRec]] : List (List Record)).flatten.map (fun rec => rec.image) =
         exDS.images.data) ∧
     (false = true →
       (([[exRec]] : List (List Record)).flatten.map (fun rec => rec.image)).Perm
         exDS.images.data) ∧
     (exCfg.dataset_percent = 1 →
       ∀ npz img, exFS (archivePath exCfg "val") = some npz → npz.image = some img →
         (([[exRec]] : List (List Record)).flatten.map (fun rec => rec.image)).Perm
           img.data)) :=
  ⟨⟨seqOracle_valid, by decide, exRun_val⟩,
    C5_bounded_pass_amended seqOracle_valid (by decide) exRun_val⟩

lemma getD_mem_of_lt {α : Type} (l : List α) (i : Nat) (d : α) (h : i < l.length) :
    l.getD i d ∈ l :=
  List.get?_mem (get?_eq_some_getD d l i h)

lemma getItem_some_eq {ds : SSMDataset} {i : Nat} {rec : Record}
    (h : ds.getItem i = some rec) :
    i < ds.images.data.length ∧ i < ds.states.data.length ∧
    i < ds.controls.data.length ∧ i < ds.labels.data.length ∧
    rec = ⟨i, ds.images.data.getD i [], ds.images.dtype,
      ds.states.data.getD i [], ds.states.dtype,
      ds.controls.data.getD i [], ds.controls.dtype,
      ds.labels.data.getD i 0, ds.labels.dtype⟩ := by
  have hsome : (ds.getItem i).isSome = true := by rw [h]; rfl
  obtain ⟨k1, k2, k3, k4⟩ := (getItem_isSome_iff ds i).1 hsome
  have he := getItem_eq_of_lt k1 k2 k3 k4
  rw [h] at he
  exact ⟨k1, k2, k3, k4, Option.some_inj.1 he⟩

/-- An archive that does have a `control` key, with an integer element type. -/
def exNpz3 : Npz :=
  ⟨some ⟨DType.float64, [[[5]]]⟩, some ⟨DType.int64, [7]⟩,
   some ⟨DType.float64, [[[1, 2, 3]]]⟩, some ⟨DType.int64, [[[9]]]⟩⟩

def exFS3 : String → Option Npz :=
  fun p => if p = "data/d3/train.npz" then some exNpz3 else none

def exCfg3 : Config := ⟨"d3", 1, 1, 1⟩

def exRec3 : Record :=
  ⟨0, [[5]], DType.float32, [[1, 2]], DType.float32, [[9]], DType.int64, 7, DType.int16⟩

def exDS3 : SSMDataset :=
  ⟨⟨DType.float32, [[[5]]]⟩, ⟨DType.int16, [7]⟩,
   ⟨DType.float32, [[[1, 2]]]⟩, ⟨DType.int64, [[[9]]]⟩⟩

lemma exRun3 : make_loader exFS3 exCfg3 seqOracle "train" true false =
    Except.ok ⟨exDS3, [[exRec3]]⟩ := rfl

/-- Counterexample to C7 as frozen: `make_loader` never casts an archive-read
`control` array, so a Record's control row can carry an integer element type:
here the archive stores `control` as `int64` and the loaded Record's control
field keeps `int64`, which is not a floating-point type. -/
theorem C7_counterexample :
    (make_loader exFS3 exCfg3 seqOracle "train" true false).map
      (fun L => (L.dataset.getItem 0).map (fun rec => rec.control_dtype)) =
      Except.ok (some DType.int64) ∧
    DType.isFloat DType.int64 = false :=
  ⟨rfl, rfl⟩

/-- C7 amended: for every Record of a successfully loaded archive, the image
and state rows are `float32` and the label is `int16`; the state row is an
original state row narrowed to its first two channels per timestep; the
control row is `float32` when the control array was synthesized, but when the
archive supplies `control` the Record keeps the archive's control element
type, which need not be floating-point. -/
theorem C7_record_types_amended
    {fs : String → Option Npz} {cfg : Config} {r : RandOracle}
    {mode : String} {ev sh : Bool} {L : Loader} {npz : Npz}
    (hok : make_loader fs cfg r mode ev sh = Except.ok L)
    (hfs : fs (archivePath cfg mode) = some npz) :
    L.dataset.images.dtype = DType.float32 ∧
    L.dataset.states.dtype = DType.float32 ∧
    L.dataset.labels.dtype = DType.int16 ∧
    (npz.control = none → L.dataset.controls.dtype = DType.float32) ∧
    (∀ c, npz.control = some c → L.dataset.controls.dtype = c.dtype) ∧
    (∀ i : Nat, ∀ rec : Record, L.dataset.getItem i = some rec →
      rec.image_dtype = DType.float32 ∧ rec.state_dtype = DType.float32 ∧
      rec.label_dtype = DType.int16 ∧ rec.control_dtype = L.dataset.controls.dtype ∧
      (∀ chan ∈ rec.state, chan.length ≤ 2) ∧
      ∀ st0, npz.state = some st0 →
        ∃ row ∈ st0.data, rec.state = row.map (fun t => t.take 2)) := by
  obtain ⟨ds, hld, hbl⟩ := make_loader_split hok
  obtain ⟨npz', img', lb, st, hfs', himg', hlb, hst, h0, h1, hm1, hm2, hm3, hm4, hds⟩ :=
    loadDataset_ok hld
  have hnpz_eq : npz = npz' := Option.some_inj.1 (hfs.symm.trans hfs')
  subst hnpz_eq
  have hdseq : L.dataset = ds := buildLoader_ok_dataset hbl
  have hstrows : ∀ x ∈ ds.states.data, ∃ row ∈ st.data,
      x = row.map (fun t => t.take 2) := by
    rw [hds]
    intro x hx
    simp only [List.mem_map] at hx
    obtain ⟨i, hi, hxeq⟩ := hx
    have hilt : i < st.data.length := hm3 i hi
    refine ⟨st.data.getD i [], getD_mem_of_lt _ _ _ hilt, ?_⟩
    rw [← hxeq, getD_map_of_lt _ _ _ hilt]
  have hctl : ds.controls.dtype = (controlOf npz img'.data).dtype := by
    rw [hds]
  refine ⟨by rw [hdseq, hds], by rw [hdseq, hds], by rw [hdseq, hds], ?_, ?_, ?_⟩
  · intro hnone
    rw [hdseq, hctl, controlOf, hnone]
  · intro c hc
    rw [hdseq, hctl, controlOf, hc]
  · intro i rec hrec
    rw [hdseq] at hrec
    obtain ⟨k1, k2, k3, k4, hreceq⟩ := getItem_some_eq hrec
    subst hreceq
    have hmem : ds.states.data.getD i [] ∈ ds.states.data := getD_mem_of_lt _ _ _ k2
    obtain ⟨row, hrowmem, hroweq⟩ := hstrows _ hmem
    refine ⟨by rw [hds], by rw [hds], by rw [hds], by rw [hdseq], ?_, ?_⟩
    · intro chan hchan
      rw [hroweq] at hchan
      simp only [List.mem_map] at hchan
      obtain ⟨t, ht, hteq⟩ := hchan
      rw [← hteq]
      simp
    · intro st0 hst0
      have hst_eq : st0 = st := Option.some_inj.1 (hst0.symm.trans hst)
      subst hst_eq
      exact ⟨row, hrowmem, hroweq⟩

/-- Witness for the amended C7 at a concrete input whose archive supplies an
`int64` control array. -/
theorem C7_witness :
    (make_loader exFS3 exCfg3 seqOracle "train" true false = Except.ok ⟨exDS3, [[exRec3]]⟩ ∧
      exFS3 (archivePath exCfg3 "train") = some exNpz3) ∧
    (exDS3.images.dtype = DType.float32 ∧
     exDS3.states.dtype = DType.float32 ∧
     exDS3.labels.dtype = DType.int16 ∧
     (exNpz3.control = none → exDS3.controls.dtype = DType.float32) ∧
     (∀ c, exNpz3.control = some c → exDS3.controls.dtype = c.dtype) ∧
     (∀ i : Nat, ∀ rec : Record, exDS3.getItem i = some rec →
       rec.image_dtype = DType.float32 ∧ rec.state_dtype = DType.float32 ∧
       rec.label_dtype = DType.int16 ∧ rec.control_dtype = exDS3.controls.dtype ∧
       (∀ chan ∈ rec.state, chan.length ≤ 2) ∧
       ∀ st0, exNpz3.state = some st0 →
         ∃ row ∈ st0.data, rec.state = row.map (fun t => t.take 2))) :=
  ⟨⟨exRun3, rfl⟩, C7_record_types_amended exRun3 rfl⟩

lemma make_loader_eq_build {fs : String → Option Npz} {cfg : Config} {r : RandOracle}
    {mode : String} {ev sh : Bool} {ds : SSMDataset}
    (h : loadDataset fs cfg r mode = Except.ok ds) :
    make_loader fs cfg r mode ev sh = buildLoader cfg r mode ev sh ds := by
  unfold make_loader
  rw [h]

/-- Configuration with `dataset_percent = 0`, outside the documented `(0, 1]` range. -/
def exCfg0 : Config := ⟨"ds", 0, 1, 1⟩

/-- Configuration with `dataset_percent = 2`: the subsample size exceeds the sample count. -/
def exCfgBig : Config := ⟨"ds", 2, 1, 1⟩

/-- Configuration with `batch_size = 0`: non-positive. -/
def exCfgBS0 : Config := ⟨"ds", 1, 0, 1⟩

/-- Counterexample to C6 as frozen: `dataset_percent = 0` lies outside
`(0, 1]`, yet `make_loader` performs no configuration validation and succeeds
silently with an empty Dataset View and an empty pass instead of failing with
an InvalidConfiguration error. -/
theorem C6_counterexample :
    exCfg0.dataset_percent = 0 ∧ ¬((0 : Rat) < exCfg0.dataset_percent) ∧
    make_loader exFS exCfg0 seqOracle "val" false false =
      Except.ok ⟨⟨⟨DType.float32, []⟩, ⟨DType.int16, []⟩, ⟨DType.float32, []⟩,
        ⟨DType.float32, []⟩⟩, []⟩ :=
  ⟨rfl, by norm_num [exCfg0], rfl⟩

lemma loadDataset_percent_zero {fs : String → Option Npz} {cfg : Config}
    {r : RandOracle} {mode : String} {npz : Npz} {img : Arr3} {lb : Arr1} {st : Arr3}
    (hr : r.Valid) (hp : cfg.dataset_percent = 0)
    (hfs : fs (archivePath cfg mode) = some npz)
    (himg : npz.image = some img) (hlb : npz.label = some lb) (hst : npz.state = some st) :
    loadDataset fs cfg r mode =
      Except.ok ⟨⟨DType.float32, []⟩, ⟨DType.int16, []⟩, ⟨DType.float32, []⟩,
        ⟨(controlOf npz img.data).dtype, []⟩⟩ := by
  have hsz : subsampleSize img.data.length cfg.dataset_percent = 0 := by
    simp [subsampleSize, hp]
  have hchoice : subsampleIdx r cfg img.data.length = [] := by
    apply List.eq_nil_of_length_eq_zero
    rw [subsampleIdx, hsz]
    exact hr.choice_length _ 0 (Nat.zero_le _)
  unfold loadDataset
  rw [hfs]
  simp only [himg, hlb, hst, hsz, hchoice]
  rw [if_neg (by simp)]
  simp [npIndex, optMap]

/-- C6 amended: `make_loader` has no configuration validation of its own and
raises no dedicated InvalidConfiguration. `dataset_percent = 0` is accepted
silently by an unshuffled bounded pass (empty Dataset View, empty pass); a
shuffled bounded pass over the resulting empty Dataset View instead fails with
the random index source's generic value error at loader construction. Other
invalid sizes likewise fail only through the libraries' own checks, as
generic value errors: a percent whose computed subsample size is negative or
exceeds the sample count fails in the without-replacement draw, a
non-positive `batch_size` fails when the bounded loader is built, and a
non-positive `num_steps * batch_size` fails when the resampling loader is
built. -/
theorem C6_no_dedicated_validation_amended :
    (∀ (fs : String → Option Npz) (cfg : Config) (r : RandOracle) (mode : String)
        (ev : Bool) (npz : Npz) (img : Arr3) (lb : Arr1) (st : Arr3),
      r.Valid → ¬(mode = "train" ∧ ev = false) → cfg.dataset_percent = 0 →
      0 < cfg.batch_size →
      fs (archivePath cfg mode) = some npz →
      npz.image = some img → npz.label = some lb → npz.state = some st →
      make_loader fs cfg r mode ev false =
        Except.ok ⟨⟨⟨DType.float32, []⟩, ⟨DType.int16, []⟩, ⟨DType.float32, []⟩,
          ⟨(controlOf npz img.data).dtype, []⟩⟩, []⟩) ∧
    (∀ (fs : String → Option Npz) (cfg : Config) (r : RandOracle) (mode : String)
        (ev : Bool) (npz : Npz) (img : Arr3) (lb : Arr1) (st : Arr3),
      r.Valid → ¬(mode = "train" ∧ ev = false) → cfg.dataset_percent = 0 →
      fs (archivePath cfg mode) = some npz →
      npz.image = some img → npz.label = some lb → npz.state = some st →
      make_loader fs cfg r mode ev true = Except.error ErrorKind.ValueError) ∧
    (∀ (fs : String → Option Npz) (cfg : Config) (r : RandOracle) (mode : String)
        (npz : Npz) (img : Arr3) (lb : Arr1) (st : Arr3),
      fs (archivePath cfg mode) = some npz →
      npz.image = some img → npz.label = some lb → npz.state = some st →
      (subsampleSize img.data.length cfg.dataset_percent < 0 ∨
        (img.data.length : Int) < subsampleSize img.data.length cfg.dataset_percent) →
      loadDataset fs cfg r mode = Except.error ErrorKind.ValueError) ∧
    (∀ (cfg : Config) (r : RandOracle) (mode : String) (ev sh : Bool) (ds : SSMDataset),
      ¬(mode = "train" ∧ ev = false) → cfg.batch_size ≤ 0 →
      buildLoader cfg r mode ev sh ds = Except.error ErrorKind.ValueError) ∧
    (∀ (cfg : Config) (r : RandOracle) (sh : Bool) (ds : SSMDataset),
      cfg.num_steps * cfg.batch_size ≤ 0 →
      buildLoader cfg r "train" false sh ds = Except.error ErrorKind.ValueError) := by
  refine ⟨?_, ?_, ?_, ?_, ?_⟩
  · intro fs cfg r mode ev npz img lb st hr hmode hp hbs hfs himg hlb hst
    have hld := loadDataset_percent_zero hr hp hfs himg hlb hst
    rw [make_loader_eq_build hld]
    unfold buildLoader
    rw [if_neg hmode, if_neg (by simp), if_neg (by omega : ¬cfg.batch_size ≤ 0)]
    simp [SSMDataset.len, optMap, chunkList, chunkAux]
  · intro fs cfg r mode ev npz img lb st hr hmode hp hfs himg hlb hst
    have hld := loadDataset_percent_zero hr hp hfs himg hlb hst
    rw [make_loader_eq_build hld]
    unfold buildLoader
    rw [if_neg hmode, if_pos ⟨rfl, rfl⟩]
  · intro fs cfg r mode npz img lb st hfs himg hlb hst hbad
    unfold loadDataset
    rw [hfs]
    simp only [himg, hlb, hst]
    rw [if_pos hbad]
  · intro cfg r mode ev sh ds hmode hbs
    unfold buildLoader
    rw [if_neg hmode]
    by_cases hsam : sh = true ∧ ds.len = 0
    · rw [if_pos hsam]
    · rw [if_neg hsam, if_pos hbs]
  · intro cfg r sh ds hns
    unfold buildLoader
    rw [if_pos ⟨rfl, rfl⟩, if_pos hns]

/-- Witness for the amended C6 at concrete inputs: a zero percent accepted
silently on an unshuffled pass, the same configuration failing at the
shuffling index source over the empty view, an oversized percent failing in
the draw, and a zero batch size failing at loader construction on both
paths. -/
theorem C6_witness :
    ((seqOracle.Valid ∧ ¬("val" = "train" ∧ false = false) ∧
        exCfg0.dataset_percent = 0 ∧ (0 : Int) < exCfg0.batch_size ∧
        exFS (archivePath exCfg0 "val") = some exNpz) ∧
      make_loader exFS exCfg0 seqOracle "val" false false =
        Except.ok ⟨⟨⟨DType.float32, []⟩, ⟨DType.int16, []⟩, ⟨DType.float32, []⟩,
          ⟨(controlOf exNpz [[[5]]]).dtype, []⟩⟩, []⟩) ∧
    make_loader exFS exCfg0 seqOracle "val" false true = Except.error ErrorKind.ValueError ∧
    loadDataset exFS exCfgBig seqOracle "val" = Except.error ErrorKind.ValueError ∧
    buildLoader exCfgBS0 seqOracle "val" false false exDS = Except.error ErrorKind.ValueError ∧
    buildLoader exCfgBS0 seqOracle "train" false true exDS = Except.error ErrorKind.ValueError :=
  ⟨⟨⟨seqOracle_valid, by decide, rfl, by decide, rfl⟩,
      C6_no_dedicated_validation_amended.1 exFS exCfg0 seqOracle "val" false
        exNpz ⟨DType.float64, [[[5]]]⟩ ⟨DType.int64, [7]⟩ ⟨DType.float64, [[[1, 2, 3]]]⟩
        seqOracle_valid (by decide) rfl (by decide) rfl rfl rfl rfl⟩,
    C6_no_dedicated_validation_amended.2.1 exFS exCfg0 seqOracle "val" false
      exNpz ⟨DType.float64, [[[5]]]⟩ ⟨DType.int64, [7]⟩ ⟨DType.float64, [[[1, 2, 3]]]⟩
      seqOracle_valid (by decide) rfl rfl rfl rfl rfl,
    C6_no_dedicated_validation_amended.2.2.1 exFS exCfgBig seqOracle "val"
      exNpz ⟨DType.float64, [[[5]]]⟩ ⟨DType.int64, [7]⟩ ⟨DType.float64, [[[1, 2, 3]]]⟩
      rfl rfl rfl rfl (Or.inr (by decide)),
    C6_no_dedicated_validation_amended.2.2.2.1 exCfgBS0 seqOracle "val" false false exDS
      (by decide) (by decide),
    C6_no_dedicated_validation_amended.2.2.2.2 exCfgBS0 seqOracle true exDS (by decide)⟩

lemma loadDataset_never_anf_mrf_when_keys_present
    {fs : String → Option Npz} {cfg : Config} {r : RandOracle} {mode : String}
    {npz : Npz} {img : Arr3} {lb : Arr1} {st : Arr3}
    (hfs : fs (archivePath cfg mode) = some npz)
    (himg : npz.image = some img) (hlb : npz.label = some lb) (hst : npz.state = some st) :
    loadDataset fs cfg r mode ≠ Except.error ErrorKind.ArchiveNotFound ∧
    loadDataset fs cfg r mode ≠ Except.error ErrorKind.MissingRequiredField := by
  unfold loadDataset
  rw [hfs]
  simp only [himg, hlb, hst]
  split
  · exact ⟨by simp, by simp⟩
  · split
    · exact ⟨by simp, by simp⟩
    · exact ⟨by simp, by simp⟩

lemma loadDataset_mrf_of_missing
    {fs : String → Option Npz} {cfg : Config} {r : RandOracle} {mode : String}
    {npz : Npz}
    (hfs : fs (archivePath cfg mode) = some npz)
    (hmiss : npz.image = none ∨ npz.label = none ∨ npz.state = none) :
    loadDataset fs cfg r mode = Except.error ErrorKind.MissingRequiredField := by
  unfold loadDataset
  rw [hfs]
  rcases hmiss with hm | hm | hm
  · cases hl : npz.label <;> cases hs : npz.state <;> simp [hm, hl, hs]
  · cases hi : npz.image <;> cases hs : npz.state <;> simp [hm, hi, hs]
  · cases hi : npz.image <;> cases hl : npz.label <;> simp [hm, hi, hl]

lemma buildLoader_never_anf_mrf
    (cfg : Config) (r : RandOracle) (mode : String) (ev sh : Bool) (ds : SSMDataset) :
    buildLoader cfg r mode ev sh ds ≠ Except.error ErrorKind.ArchiveNotFound ∧
    buildLoader cfg r mode ev sh ds ≠ Except.error ErrorKind.MissingRequiredField := by
  unfold buildLoader
  split
  · split
    · exact ⟨by simp, by simp⟩
    · split
      · exact ⟨by simp, by simp⟩
      · split
        · exact ⟨by simp, by simp⟩
        · exact ⟨by simp, by simp⟩
  · split
    · exact ⟨by simp, by simp⟩
    · split
      · exact ⟨by simp, by simp⟩
      · split
        · exact ⟨by simp, by simp⟩
        · exact ⟨by simp, by simp⟩

/-- C8: `make_loader` fails with ArchiveNotFound exactly when the archive file
for the requested split is absent, and with MissingRequiredField exactly when
the archive exists but lacks one of the required keys `image`, `label`,
`state`; those errors arise nowhere else (no retry, no silent default for
those keys — only the optional `control` key has a fallback). -/
theorem C8_archive_and_key_errors_exact
    (fs : String → Option Npz) (cfg : Config) (r : RandOracle)
    (mode : String) (ev sh : Bool) :
    (make_loader fs cfg r mode ev sh = Except.error ErrorKind.ArchiveNotFound ↔
      fs (archivePath cfg mode) = none) ∧
    (make_loader fs cfg r mode ev sh = Except.error ErrorKind.MissingRequiredField ↔
      ∃ npz, fs (archivePath cfg mode) = some npz ∧
        (npz.image = none ∨ npz.label = none ∨ npz.state = none)) := by
  cases hfs : fs (archivePath cfg mode) with
  | none =>
    have hld : loadDataset fs cfg r mode = Except.error ErrorKind.ArchiveNotFound := by
      unfold loadDataset
      rw [hfs]
    have hml : make_loader fs cfg r mode ev sh = Except.error ErrorKind.ArchiveNotFound := by
      unfold make_loader
      rw [hld]
    constructor
    · constructor
      · intro _; rfl
      · intro _; exact hml
    · constructor
      · intro h
        rw [hml] at h
        cases h
      · rintro ⟨npz, hnpz, -⟩
        cases hnpz
  | some npz =>
    rcases hi : npz.image with _ | img
    · have hld := loadDataset_mrf_of_missing (r := r) hfs (Or.inl hi)
      have hml : make_loader fs cfg r mode ev sh =
          Except.error ErrorKind.MissingRequiredField := by
        unfold make_loader
        rw [hld]
      refine ⟨⟨fun h => ?_, fun h => ?_⟩, ⟨fun _ => ⟨npz, rfl, Or.inl hi⟩, fun _ => hml⟩⟩
      · rw [hml] at h; cases h
      · cases h
    · rcases hl : npz.label with _ | lb
      · have hld := loadDataset_mrf_of_missing (r := r) hfs (Or.inr (Or.inl hl))
        have hml : make_loader fs cfg r mode ev sh =
            Except.error ErrorKind.MissingRequiredField := by
          unfold make_loader
          rw [hld]
        refine ⟨⟨fun h => ?_, fun h => ?_⟩,
          ⟨fun _ => ⟨npz, rfl, Or.inr (Or.inl hl)⟩, fun _ => hml⟩⟩
        · rw [hml] at h; cases h
        · cases h
      · rcases hs : npz.state with _ | st
        · have hld := loadDataset_mrf_of_missing (r := r) hfs (Or.inr (Or.inr hs))
          have hml : make_loader fs cfg r mode ev sh =
              Except.error ErrorKind.MissingRequiredField := by
            unfold make_loader
            rw [hld]
          refine ⟨⟨fun h => ?_, fun h => ?_⟩,
            ⟨fun _ => ⟨npz, rfl, Or.inr (Or.inr hs)⟩, fun _ => hml⟩⟩
          · rw [hml] at h; cases h
          · cases h
        · -- all three required keys present: neither error can occur
          obtain ⟨hna, hnm⟩ :=
            loadDataset_never_anf_mrf_when_keys_present (r := r) hfs hi hl hs
          have hmla : make_loader fs cfg r mode ev sh ≠
              Except.error ErrorKind.ArchiveNotFound := by
            unfold make_loader
            cases hld : loadDataset fs cfg r mode with
            | error e =>
              intro hcon
              apply hna
              rw [hld]
              cases hcon
              rfl
            | ok ds => exact (buildLoader_never_anf_mrf cfg r mode ev sh ds).1
          have hmlm : make_loader fs cfg r mode ev sh ≠
              Except.error ErrorKind.MissingRequiredField := by
            unfold make_loader
            cases hld : loadDataset fs cfg r mode with
            | error e =>
              intro hcon
              apply hnm
              rw [hld]
              cases hcon
              rfl
            | ok ds => exact (buildLoader_never_anf_mrf cfg r mode ev sh ds).2
          refine ⟨⟨fun h => absurd h hmla, fun h => ?_⟩,
            ⟨fun h => absurd h hmlm, fun h => ?_⟩⟩
          · cases h
          · obtain ⟨npz', hnpz', hmiss⟩ := h
            cases hnpz'
            rcases hmiss with hm | hm | hm
            · rw [hi] at hm; cases hm
            · rw [hl] at hm; cases hm
            · rw [hs] at hm; cases hm

/-- Witness for C8 at concrete inputs: a present archive with all keys (both
iffs' sides false), exercised at the fixture filesystem. -/
theorem C8_witness :
    (make_loader exFS exCfg seqOracle "val" false false =
        Except.error ErrorKind.ArchiveNotFound ↔
      exFS (archivePath exCfg "val") = none) ∧
    (make_loader exFS exCfg seqOracle "val" false false =
        Except.error ErrorKind.MissingRequiredField ↔
      ∃ npz, exFS (archivePath exCfg "val") = some npz ∧
        (npz.image = none ∨ npz.label = none ∨ npz.state = none)) :=
  C8_archive_and_key_errors_exact exFS exCfg seqOracle "val" false false

lemma getD_replicate_of_lt {α : Type} (a d : α) :
    ∀ (n i : Nat), i < n → (List.replicate n a).getD i d = a
  | 0, i, h => by simp at h
  | n + 1, 0, _ => rfl
  | n + 1, i + 1, h => getD_replicate_of_lt a d n i (by omega)

/-- C3: with `dataset_percent` in `(0, 1]`, the subsample index set drawn by
`make_loader` has exactly `floor(n * percent)` indices for an archive with `n`
samples, is drawn without replacement (no index occurs twice), and the
Dataset View has exactly that many rows. -/
theorem C3_subsample_size_and_no_replacement
    {fs : String → Option Npz} {cfg : Config} {r : RandOracle}
    {mode : String} {ev sh : Bool} {L : Loader}
    (hr : r.Valid) (hp0 : 0 < cfg.dataset_percent) (hp1 : cfg.dataset_percent ≤ 1)
    (hok : make_loader fs cfg r mode ev sh = Except.ok L) :
    ∃ npz img, fs (archivePath cfg mode) = some npz ∧ npz.image = some img ∧
      (subsampleIdx r cfg img.data.length).length =
        (⌊(img.data.length : Rat) * cfg.dataset_percent⌋).toNat ∧
      (subsampleIdx r cfg img.data.length).Nodup ∧
      L.dataset.len = (subsampleIdx r cfg img.data.length).length := by
  obtain ⟨ds, hld, hbl⟩ := make_loader_split hok
  obtain ⟨npz, img, lb, st, hfs, himg, hlb, hst, h0, h1, hm1, hm2, hm3, hm4, hds⟩ :=
    loadDataset_ok hld
  have hdseq : L.dataset = ds := buildLoader_ok_dataset hbl
  obtain ⟨hlen, hnd, hlt⟩ := subsampleIdx_spec hr cfg img.data.length h0 h1
  refine ⟨npz, img, hfs, himg, ?_, hnd, ?_⟩
  · rw [hlen, subsampleSize_eq_floor _ _ hp0.le]
  · rw [hdseq]
    subst hds
    simp [SSMDataset.len]

/-- Witness for C3 at a concrete input. -/
theorem C3_witness :
    (seqOracle.Valid ∧ (0 : Rat) < exCfg.dataset_percent ∧ exCfg.dataset_percent ≤ 1 ∧
      make_loader exFS exCfg seqOracle "val" false false = Except.ok ⟨exDS, [[exRec]]⟩) ∧
    (∃ npz img, exFS (archivePath exCfg "val") = some npz ∧ npz.image = some img ∧
      (subsampleIdx seqOracle exCfg img.data.length).length =
        (⌊(img.data.length : Rat) * exCfg.dataset_percent⌋).toNat ∧
      (subsampleIdx seqOracle exCfg img.data.length).Nodup ∧
      exDS.len = (subsampleIdx seqOracle exCfg img.data.length).length) :=
  ⟨⟨seqOracle_valid, by norm_num [exCfg], by norm_num [exCfg], exRun_val⟩,
    C3_subsample_size_and_no_replacement seqOracle_valid
      (by norm_num [exCfg]) (by norm_num [exCfg]) exRun_val⟩

/-- C4: when the archive lacks the `control` key, the synthesized control
array is all-zero `float32` of shape `(sample_count, time_dim, 1)` before
subsampling, and the Dataset View's control tensor is all-zero `float32` of
shape `(subsample_count, time_dim, 1)`. -/
theorem C4_missing_control_synthesized_zero
    {fs : String → Option Npz} {cfg : Config} {r : RandOracle}
    {mode : String} {ev sh : Bool} {L : Loader} {npz : Npz} {img : Arr3}
    (hr : r.Valid)
    (hok : make_loader fs cfg r mode ev sh = Except.ok L)
    (hfs : fs (archivePath cfg mode) = some npz)
    (himg : npz.image = some img)
    (hctl : npz.control = none) :
    controlOf npz img.data = ⟨DType.float32,
      List.replicate img.data.length
        (List.replicate (img.data.headD []).length [(0 : Rat)])⟩ ∧
    L.dataset.controls.dtype = DType.float32 ∧
    L.dataset.controls.data.length =
      (subsampleSize img.data.length cfg.dataset_percent).toNat ∧
    L.dataset.len = (subsampleSize img.data.length cfg.dataset_percent).toNat ∧
    (∀ row ∈ L.dataset.controls.data,
      row = List.replicate (img.data.headD []).length [(0 : Rat)]) ∧
    ∀ row ∈ L.dataset.controls.data, ∀ chan ∈ row, ∀ x ∈ chan, x = (0 : Rat) := by
  have hco : controlOf npz img.data = ⟨DType.float32,
      List.replicate img.data.length
        (List.replicate (img.data.headD []).length [(0 : Rat)])⟩ := by
    rw [controlOf, hctl]
  obtain ⟨ds, hld, hbl⟩ := make_loader_split hok
  obtain ⟨npz', img', lb, st, hfs', himg', hlb, hst, h0, h1, hm1, hm2, hm3, hm4, hds⟩ :=
    loadDataset_ok hld
  rw [hfs] at hfs'
  cases hfs'
  rw [himg] at himg'
  cases himg'
  have hdseq : L.dataset = ds := buildLoader_ok_dataset hbl
  obtain ⟨hlen, hnd, hlt⟩ := subsampleIdx_spec hr cfg img.data.length h0 h1
  have hrow : ∀ row ∈ L.dataset.controls.data,
      row = List.replicate (img.data.headD []).length [(0 : Rat)] := by
    rw [hdseq]
    subst hds
    intro row hrow
    simp only [List.mem_map] at hrow
    obtain ⟨i, hi, hrow⟩ := hrow
    rw [hco] at hrow
    simp only at hrow
    rw [getD_replicate_of_lt _ _ _ _ (hlt i hi)] at hrow
    exact hrow.symm
  refine ⟨hco, ?_, ?_, ?_, hrow, ?_⟩
  · rw [hdseq]
    subst hds
    simp [hco]
  · rw [hdseq]
    subst hds
    simp [hlen]
  · rw [hdseq]
    subst hds
    simp [SSMDataset.len, hlen]
  · intro row hr' chan hchan x hx
    rw [hrow row hr'] at hchan
    have := List.eq_of_mem_replicate hchan
    subst this
    simpa using hx

/-- Witness for C4 at a concrete input (the fixture archive has no `control`
key). -/
theorem C4_witness :
    (seqOracle.Valid ∧
      make_loader exFS exCfg seqOracle "val" false false = Except.ok ⟨exDS, [[exRec]]⟩ ∧
      exFS (archivePath exCfg "val") = some exNpz ∧
      exNpz.image = some ⟨DType.float64, [[[5]]]⟩ ∧ exNpz.control = none) ∧
    (exDS.controls.dtype = DType.float32 ∧
      ∀ row ∈ exDS.controls.data, ∀ chan ∈ row, ∀ x ∈ chan, x = (0 : Rat)) :=
  ⟨⟨seqOracle_valid, exRun_val, rfl, rfl, rfl⟩,
    (C4_missing_control_synthesized_zero seqOracle_valid exRun_val rfl rfl rfl).2.1,
    (C4_missing_control_synthesized_zero seqOracle_valid exRun_val rfl rfl rfl).2.2.2.2.2⟩

end SSM
